import Mathlib

/-!
Verification of the call_gate rate-limit counter.

This file gives a shallow embedding of the storage backends and the gate
engine of the call_gate library, and proves (or refutes) the frozen claims
about them.

Embedded source files:
* src/call_gate/storages/shared.py   (SharedMemoryStorage: numpy uint64 array
  in shared memory; stores are modelled with an explicit mod 2^64)
* src/call_gate/storages/redis.py    (RedisStorage: the Lua scripts run by the
  server; Lua numbers are modelled as exact integers, valid below 2^53)
* src/sliding_window/storages/simple.py (SimpleWindowStorage: a deque with
  maxlen = capacity)
* src/call_gate/gate.py              (CallGate engine: update with its retry
  loop, _refresh_frames, check_limits, clear, as_dict round trip)

Timestamps are opaque in every claim considered here, so they are modelled as
abstract integers (a frame-step counter) rather than ISO strings.
-/

/-- The error taxonomy of the library (src/sliding_window/errors.py, mirrored
by the missing call_gate/errors.py whose importers are in src).
frameLimit and gateLimit model FrameLimitError and GateLimitError, which
derive from ThrottlingError; gateOverflow and frameOverflow model
GateOverflowError and FrameOverflowError, which do not; valueError models
(CallGate)ValueError, typeError models CallGateTypeError. -/
inductive GateErr where
  | frameLimit
  | gateLimit
  | gateOverflow
  | frameOverflow
  | valueError
  | typeError
deriving DecidableEq, Repr

/-- FrameLimitError and GateLimitError derive from ThrottlingError; no other
error in the taxonomy does (src/sliding_window/errors.py). -/
def GateErr.isThrottling : GateErr → Bool
  | .frameLimit => true
  | .gateLimit => true
  | _ => false

/-- 2^64, the modulus of the numpy uint64 cells of the shared backend. -/
def U64 : Int := 18446744073709551616

/-- A store into a numpy uint64 cell keeps the value modulo 2^64. -/
def wrap64 (x : Int) : Int := x % U64

/-- A raised exception leaves the mutated object exactly as it was: the
observable state after a storage call that may raise. -/
def afterCall {σ : Type} (s : σ) : Except GateErr σ → σ
  | .ok s' => s'
  | .error _ => s

/-- Result of a storage call as an optional error kind. -/
def errOf {σ : Type} : Except GateErr σ → Option GateErr
  | .ok _ => none
  | .error e => some e

/-! ## Shared-memory backend (src/call_gate/storages/shared.py) -/

/-- State of SharedMemoryStorage: the numpy uint64 ring (self._data, one cell
per frame, length = capacity) and the shared uint64 sum word (self._sum). -/
structure SharedState where
  data : List Int
  sum : Int
deriving DecidableEq, Repr

/-- SharedMemoryStorage._set_sum: self._sum[...] = np.sum(self._data)
(np.sum over uint64 wraps modulo 2^64). -/
def sharedSetSum (s : SharedState) : SharedState :=
  ⟨s.data, wrap64 s.data.sum⟩

/-- SharedMemoryStorage.clear: fill the ring with zeros and zero the sum. -/
def sharedClear (s : SharedState) : SharedState :=
  ⟨List.replicate s.data.length 0, 0⟩

/-- SharedMemoryStorage.__init__: attach an existing region (or a fresh
zeroed one), overlay the optional seed data truncated to capacity onto the
prefix of the ring, then _set_sum. -/
def sharedInit (capacity : Nat) (existing : Option (List Int)) (seed : List Int) :
    SharedState :=
  let base := existing.getD (List.replicate capacity 0)
  let seed' := (seed.take capacity).map wrap64
  sharedSetSum ⟨seed' ++ base.drop seed'.length, 0⟩

/-- SharedMemoryStorage.atomic_update: read data[0] and the sum as Python
ints, run the four checks in source order, then store the new frame value
and the new sum into the uint64 cells. -/
def sharedAtomicUpdate (s : SharedState) (value frameLimit gateLimit : Int) :
    Except GateErr SharedState :=
  let currentValue := s.data.headD 0
  let newValue := currentValue + value
  let currentSum := s.sum
  let newSum := currentSum + value
  if 0 < frameLimit ∧ frameLimit < newValue then .error .frameLimit
  else if 0 < gateLimit ∧ gateLimit < newSum then .error .gateLimit
  else if newSum < 0 then .error .gateOverflow
  else if newValue < 0 then .error .frameOverflow
  else .ok ⟨s.data.set 0 (wrap64 newValue), wrap64 newSum⟩

/-- SharedMemoryStorage.slide: the source tests n <= 0 with a bare pass
(no rejection), delegates to clear for n >= capacity, and otherwise performs
the numpy slice assignments data[n:] = data[:-n]; data[:n] = 0 followed by
_set_sum. Python slice semantics clamp the bounds; n = 0 makes the first
assignment broadcast an empty array into a non-empty slice, which raises
ValueError before anything is written; negative n assigns the first |n|
cells over the last |n| ones and zeroes the rest. -/
def sharedSlide (capacity : Nat) (s : SharedState) (n : Int) :
    Except GateErr SharedState :=
  let len := s.data.length
  if (capacity : Int) ≤ n then .ok (sharedClear s)
  else if n = 0 then
    if len = 0 then .ok (sharedSetSum s) else .error .valueError
  else if 0 < n then
    .ok (sharedSetSum ⟨List.replicate (min n.toNat len) 0 ++ s.data.take (len - n.toNat), s.sum⟩)
  else
    let m := min (-n).toNat len
    .ok (sharedSetSum ⟨List.replicate (len - m) 0 ++ s.data.take m, s.sum⟩)

/-- SharedMemoryStorage.as_list: return self._data[:-1].tolist() — note the
[:-1], which drops the last (oldest) frame. -/
def sharedAsList (s : SharedState) : List Int :=
  s.data.dropLast

/-- SharedMemoryStorage.state: the full ring and the stored sum. -/
def sharedStateProp (s : SharedState) : List Int × Int :=
  (s.data, s.sum)

/-- SharedMemoryStorage.__setitem__: store the value into the indexed uint64
cell, then _set_sum. -/
def sharedSetItem (s : SharedState) (i : Nat) (v : Int) : SharedState :=
  sharedSetSum ⟨s.data.set i (wrap64 v), s.sum⟩

/-! ## Redis backend (src/call_gate/storages/redis.py, server-side scripts) -/

/-- State held by the Redis server for one gate: the list key (newest at
head), the sum key and the timestamp key, the latter two possibly absent. -/
structure RedisState where
  data : List Int
  sum : Option Int
  timestamp : Option Int
deriving DecidableEq, Repr

/-- RedisStorage.clear (Lua): rewrite the list with capacity zeros, set the
sum key to 0 and delete the timestamp key. -/
def redisClear (capacity : Nat) : RedisState :=
  ⟨List.replicate capacity 0, some 0, none⟩

/-- One iteration of the slide script loop: RPOP (adding the popped value, if
any, to removed_sum) then LPUSH "0". -/
def redisShiftStep (st : List Int × Int) : List Int × Int :=
  match st.1.getLast? with
  | some v => (0 :: st.1.dropLast, st.2 + v)
  | none => (0 :: st.1, st.2)

/-- The slide script loop run n times, accumulating removed_sum. -/
def redisSlideLoop : List Int → Int → Nat → List Int × Int
  | l, acc, 0 => (l, acc)
  | l, acc, Nat.succ k =>
    redisSlideLoop (redisShiftStep (l, acc)).1 (redisShiftStep (l, acc)).2 k

/-- The body of the slide Lua script: loop n times, then store
current_sum - removed_sum into the sum key and the current wall-clock
timestamp into the timestamp key. -/
def redisSlideScript (s : RedisState) (n : Nat) (now : Int) : RedisState :=
  let lr := redisSlideLoop s.data 0 n
  ⟨lr.1, some (s.sum.getD 0 - lr.2), some now⟩

/-- RedisStorage.slide: reject n < 1 with CallGateValueError; for
n >= capacity run clear() first — and then still execute the slide script,
which re-sets the timestamp key. -/
def redisSlide (capacity : Nat) (s : RedisState) (n : Int) (now : Int) :
    Except GateErr RedisState :=
  if n < 1 then .error .valueError
  else
    let s1 := if (capacity : Int) ≤ n then redisClear capacity else s
    .ok (redisSlideScript s1 n.toNat now)

/-- RedisStorage.atomic_update (Lua): LINDEX 0 (or "0"), GET sum (or "0"),
the four checks in source order, then LSET 0, SET sum, SET timestamp. -/
def redisAtomicUpdate (s : RedisState) (value frameLimit gateLimit : Int)
    (now : Int) : Except GateErr RedisState :=
  let currentValue := s.data.headD 0
  let newValue := currentValue + value
  let currentSum := s.sum.getD 0
  let newSum := currentSum + value
  if 0 < frameLimit ∧ frameLimit < newValue then .error .frameLimit
  else if 0 < gateLimit ∧ gateLimit < newSum then .error .gateLimit
  else if newSum < 0 then .error .gateOverflow
  else if newValue < 0 then .error .frameOverflow
  else .ok ⟨s.data.set 0 newValue, some newSum, some now⟩

/-- The adjust_list helper of the initialization script: zero-pad on the
right up to capacity, or truncate to capacity. -/
def adjustList (l : List Int) (capacity : Nat) : List Int :=
  if l.length < capacity then l ++ List.replicate (capacity - l.length) 0
  else l.take capacity

/-- The initialization Lua script: if the list key exists (a Redis list key
exists iff it is non-empty), prepend the provided data (an empty provided
list means no data was passed); otherwise start from the provided data;
adjust to capacity and store the recomputed sum. The timestamp key is not
touched. -/
def redisInitScript (capacity : Nat) (provided : List Int) (s : RedisState) :
    RedisState :=
  let newList :=
    if s.data ≠ [] then adjustList (provided ++ s.data) capacity
    else adjustList provided capacity
  ⟨newList, some newList.sum, s.timestamp⟩

/-- RedisStorage.as_list: LRANGE 0 -1, the full list. -/
def redisAsList (s : RedisState) : List Int :=
  s.data

/-! ## Simple backend (src/sliding_window/storages/simple.py) -/

/-- A fresh deque: capacity zeros (maxlen = capacity). -/
def simpleFresh (capacity : Nat) : List Int :=
  List.replicate capacity 0

/-- deque.extendleft on a deque with maxlen = capacity: push each element of
xs to the left in order, dropping from the right when full. -/
def dequeExtendLeft (capacity : Nat) : List Int → List Int → List Int
  | [], d => d
  | x :: xs, d => dequeExtendLeft capacity xs ((x :: d).take capacity)

/-- SimpleWindowStorage.slide: reject n < 1 with a value error, otherwise
extendleft n zeros (the deque maxlen discards the oldest entries). -/
def simpleSlide (capacity : Nat) (d : List Int) (n : Int) :
    Except GateErr (List Int) :=
  if n < 1 then .error .valueError
  else .ok (dequeExtendLeft capacity (List.replicate n.toNat 0) d)

/-- SimpleWindowStorage.atomic_update: read data[0], recompute the sum from
the deque, run the four checks in source order, then store data[0]. -/
def simpleAtomicUpdate (d : List Int) (value frameLimit gateLimit : Int) :
    Except GateErr (List Int) :=
  let currentValue := d.headD 0
  let newValue := currentValue + value
  let currentSum := d.sum
  let newSum := currentSum + value
  if 0 < frameLimit ∧ frameLimit < newValue then .error .frameLimit
  else if 0 < gateLimit ∧ gateLimit < newSum then .error .gateLimit
  else if newSum < 0 then .error .gateOverflow
  else if newValue < 0 then .error .frameOverflow
  else .ok (d.set 0 newValue)

/-- SimpleWindowStorage.sum: the sum is recomputed from the deque on every
read; there is no cached sum in this backend. -/
def simpleSum (d : List Int) : Int :=
  d.sum

/-- SimpleWindowStorage.as_list: list(self._data), the full deque. -/
def simpleAsList (d : List Int) : List Int :=
  d

/-! ## Gate engine (src/call_gate/gate.py) -/

/-- A Python scalar as far as CallGate._is_int can distinguish one: an int,
a bool (which is a subtype of int in Python), None, or anything else. -/
inductive PyVal where
  | int (v : Int)
  | bool (b : Bool)
  | noneV
  | other
deriving DecidableEq, Repr

/-- Python isinstance(value, int): true for ints and for bools, because bool
is a subclass of int. -/
def pyIsInstanceInt : PyVal → Bool
  | .int _ => true
  | .bool _ => true
  | _ => false

/-- Python isinstance(value, bool). -/
def pyIsInstanceBool : PyVal → Bool
  | .bool _ => true
  | _ => false

/-- CallGate._is_int: value is not None and not isinstance(value, bool) and
isinstance(value, int). -/
def isIntCG (v : PyVal) : Bool :=
  v ≠ PyVal.noneV && !pyIsInstanceBool v && pyIsInstanceInt v

/-- Caller-visible outcome of CallGate.update: a normal return carrying the
final storage state, a raised error, the early return of update(0), or a
retry loop that is still running when the modelled fuel runs out. -/
inductive UpdateResult (σ : Type) where
  | ok (s : σ)
  | err (e : GateErr)
  | noop
  | pending
deriving DecidableEq, Repr

/-- The non-throw retry loop of CallGate.update: re-refresh and re-attempt
the atomic update; a ThrottlingError is swallowed (the caller then sleeps one
frame_step) and every other exception propagates. The i-th entry of attempts
is the result of the atomic update performed after the i-th refresh, and fuel
bounds how many iterations are modelled. -/
def gateUpdateLoop {σ : Type} (attempts : Nat → Except GateErr σ) :
    Nat → Nat → UpdateResult σ
  | _, 0 => .pending
  | i, Nat.succ fuel =>
    match attempts i with
    | .ok s => .ok s
    | .error e =>
      if e.isThrottling then gateUpdateLoop attempts (i + 1) fuel else .err e

/-- CallGate.update (src/call_gate/gate.py lines 432-470): the type check,
the update(0) early return, the pre-check raising FrameLimitError whenever
value > frame_limit > 0 (regardless of throw), then the first refreshed
atomic attempt; on failure either propagate (throw=True) or enter the retry
loop. The storage interaction is abstracted into the attempts sequence. -/
def gateUpdate {σ : Type} (value : PyVal) (throw : Bool) (frameLimit : Int)
    (attempts : Nat → Except GateErr σ) (fuel : Nat) : UpdateResult σ :=
  if ¬ isIntCG value then .err .typeError
  else
    match value with
    | .int v =>
      if v = 0 then .noop
      else if v > frameLimit ∧ 0 < frameLimit then .err .frameLimit
      else
        match attempts 0 with
        | .ok s => .ok s
        | .error e => if throw then .err e else gateUpdateLoop attempts 1 fuel
    | _ => .err .typeError

/-- Gate-level state over the simple backend: the ring (self._data) and the
current-frame timestamp (self._current_dt), with wall time counted in
frame steps. -/
structure GWState where
  ring : List Int
  dt : Option Int
deriving DecidableEq, Repr

/-- CallGate._refresh_frames: adopt the clock step when no timestamp is set;
otherwise compute the frame difference. A difference of at least frames
delegates to clear() — which leaves the timestamp ABSENT, since the source
does not re-set it afterwards — and a positive in-window difference slides
the ring and adopts the clock step. -/
def refreshFrames (frames : Nat) (t : Int) (s : GWState) : GWState :=
  match s.dt with
  | none => ⟨s.ring, some t⟩
  | some dt0 =>
    let diff := t - dt0
    if (frames : Int) ≤ diff then ⟨List.replicate frames 0, none⟩
    else if 0 < diff then
      ⟨List.replicate (min diff.toNat s.ring.length) 0 ++
        s.ring.take (s.ring.length - diff.toNat), some t⟩
    else s

/-- CallGate.clear: clear the storage, clear the stored timestamp and set
self._current_dt to None. -/
def gateClear (frames : Nat) : GWState :=
  ⟨List.replicate frames 0, none⟩

/-- A freshly constructed gate without seeded data: default ring, no
timestamp. -/
def gateConstruct (frames : Nat) : GWState :=
  gateClear frames

/-- The storage-state effect of one CallGate.update call (throw=True view;
the retry loop repeats refreshFrames-plus-attempt steps, which the trace
relation models as further operations). A non-integer value raises before
anything is touched; update(0) returns early; the pre-check raises before
the lock is taken; otherwise the frames are refreshed and the atomic update
either commits or raises leaving the refreshed state. -/
def gateUpdateEffect (frames : Nat) (frameLimit gateLimit : Int) (t : Int)
    (value : PyVal) (s : GWState) : GWState :=
  if ¬ isIntCG value then s
  else
    match value with
    | .int v =>
      if v = 0 then s
      else if v > frameLimit ∧ 0 < frameLimit then s
      else
        let s1 := refreshFrames frames t s
        match simpleAtomicUpdate s1.ring v frameLimit gateLimit with
        | .ok d => ⟨d, s1.dt⟩
        | .error _ => s1
    | _ => s

/-- CallGate.check_limits mutates nothing except through its internal
_refresh_frames call; the possible ThrottlingError is raised afterwards. -/
def checkLimitsEffect (frames : Nat) (t : Int) (s : GWState) : GWState :=
  refreshFrames frames t s

/-- The externally observable operations of the gate engine. -/
inductive GateOp where
  | update (t : Int) (value : PyVal)
  | checkLimits (t : Int)
  | clear
deriving DecidableEq, Repr

/-- One observable operation of a gate with the given geometry and limits. -/
def gateStep (frames : Nat) (frameLimit gateLimit : Int) (s : GWState) :
    GateOp → GWState
  | .update t value => gateUpdateEffect frames frameLimit gateLimit t value s
  | .checkLimits t => checkLimitsEffect frames t s
  | .clear => gateClear frames

/-- The state after running a sequence of observable operations on a freshly
constructed gate. -/
def gateRun (frames : Nat) (frameLimit gateLimit : Int) (ops : List GateOp) :
    GWState :=
  ops.foldl (gateStep frames frameLimit gateLimit) (gateConstruct frames)

/-! ## The atomic update protocol as the specification states it (spec 4.4) -/

/-- Modelled from the spec: the failure protocol of section 4.4, written from
the specification words — FAIL frame_limit when frame_limit > 0 and
cur + value > frame_limit, else FAIL gate_limit when gate_limit > 0 and
sum + value > gate_limit, else FAIL gate_overflow when sum + value < 0, else
FAIL frame_overflow when cur + value < 0, else succeed. Used only to compare
the three backend implementations against the spec. -/
def specFailureProtocol (cur sum value frameLimit gateLimit : Int) :
    Option GateErr :=
  if 0 < frameLimit ∧ frameLimit < cur + value then some .frameLimit
  else if 0 < gateLimit ∧ gateLimit < sum + value then some .gateLimit
  else if sum + value < 0 then some .gateOverflow
  else if cur + value < 0 then some .frameOverflow
  else none

/-! ## Helper lemmas -/

theorem wrap64_wrap_add (a b : Int) : wrap64 (wrap64 a + b) = wrap64 (a + b) := by
  simp [wrap64, Int.add_emod, Int.emod_emod_of_dvd]

theorem wrap64_add_wrap (a b : Int) : wrap64 (a + wrap64 b) = wrap64 (a + b) := by
  simp [wrap64, Int.add_emod, Int.emod_emod_of_dvd]

theorem wrap64_eq_self (a : Int) (h0 : 0 ≤ a) (h1 : a < U64) : wrap64 a = a :=
  Int.emod_eq_of_lt h0 h1

theorem headD_set_zero (l : List Int) (x : Int) (h : l ≠ []) :
    (l.set 0 x).headD 0 = x := by
  cases l with
  | nil => exact absurd rfl h
  | cons a t => rfl

theorem tail_set_zero (l : List Int) (x : Int) : (l.set 0 x).tail = l.tail := by
  cases l <;> rfl

theorem sum_set_zero (l : List Int) (x : Int) (h : l ≠ []) :
    (l.set 0 x).sum = l.sum - l.headD 0 + x := by
  cases l with
  | nil => exact absurd rfl h
  | cons a t => simp [List.sum_cons]; ring

theorem getD_replicate_append_left (n i : Nat) (xs : List Int) (h : i < n) :
    (List.replicate n (0 : Int) ++ xs).getD i 0 = 0 := by
  induction n generalizing i with
  | zero => omega
  | succ k ih =>
    cases i with
    | zero => rfl
    | succ j =>
      simp only [List.replicate_succ, List.cons_append, List.getD_cons_succ]
      exact ih j (by omega)

theorem getD_replicate_append_right (n i : Nat) (xs : List Int) (h : n ≤ i) :
    (List.replicate n (0 : Int) ++ xs).getD i 0 = xs.getD (i - n) 0 := by
  induction n generalizing i with
  | zero => simp
  | succ k ih =>
    cases i with
    | zero => omega
    | succ j =>
      simp only [List.replicate_succ, List.cons_append, List.getD_cons_succ]
      have := ih j (by omega)
      simpa [Nat.succ_sub_succ] using this

theorem getD_take (xs : List Int) (m i : Nat) (h : i < m) :
    (xs.take m).getD i 0 = xs.getD i 0 := by
  induction xs generalizing m i with
  | nil => simp
  | cons a t ih =>
    cases m with
    | zero => omega
    | succ k =>
      cases i with
      | zero => rfl
      | succ j =>
        simp only [List.take_succ_cons, List.getD_cons_succ]
        exact ih k j (by omega)

theorem sum_take_of_drop (l : List Int) (k : Nat) :
    (l.take k).sum = l.sum - (l.drop k).sum := by
  have := List.sum_take_add_sum_drop l k
  omega

theorem gateUpdateLoop_no_throttle {σ : Type} (attempts : Nat → Except GateErr σ) :
    ∀ (fuel i : Nat) (e : GateErr),
      gateUpdateLoop attempts i fuel = .err e → e.isThrottling = false := by
  intro fuel
  induction fuel with
  | zero => intro i e h; exact absurd h (by simp [gateUpdateLoop])
  | succ k ih =>
    intro i e h
    simp only [gateUpdateLoop] at h
    cases hA : attempts i with
    | ok s => simp [hA] at h
    | error e0 =>
      simp only [hA] at h
      by_cases ht : e0.isThrottling = true
      · rw [if_pos ht] at h
        exact ih (i + 1) e h
      · rw [if_neg ht] at h
        cases h
        simpa using ht

/-! ## Claim theorems -/

/-- C2: every backend's atomic_update fails with the frame-limit error when
frame_limit > 0 and data[0] + v > frame_limit, else with the gate-limit
error when gate_limit > 0 and sum + v > gate_limit, else with the
gate-overflow error when sum + v < 0, else with the frame-overflow error
when data[0] + v < 0, checked in that order (errOf agrees with the spec
protocol for all inputs); on any failure the storage state is unchanged
(the exception is raised before the stores); and the four failure kinds are
pairwise distinct error kinds. -/
theorem C2_failure_protocol :
    (∀ (s : SharedState) (v fl gl : Int),
      errOf (sharedAtomicUpdate s v fl gl) =
        specFailureProtocol (s.data.headD 0) s.sum v fl gl ∧
      (∀ e, sharedAtomicUpdate s v fl gl = .error e →
        afterCall s (sharedAtomicUpdate s v fl gl) = s)) ∧
    (∀ (s : RedisState) (v fl gl now : Int),
      errOf (redisAtomicUpdate s v fl gl now) =
        specFailureProtocol (s.data.headD 0) (s.sum.getD 0) v fl gl ∧
      (∀ e, redisAtomicUpdate s v fl gl now = .error e →
        afterCall s (redisAtomicUpdate s v fl gl now) = s)) ∧
    (∀ (d : List Int) (v fl gl : Int),
      errOf (simpleAtomicUpdate d v fl gl) =
        specFailureProtocol (d.headD 0) d.sum v fl gl ∧
      (∀ e, simpleAtomicUpdate d v fl gl = .error e →
        afterCall d (simpleAtomicUpdate d v fl gl) = d)) ∧
    List.Pairwise (· ≠ ·)
      [GateErr.frameLimit, GateErr.gateLimit, GateErr.gateOverflow,
        GateErr.frameOverflow] := by
  refine ⟨fun s v fl gl => ⟨?_, fun e h => ?_⟩,
          fun s v fl gl now => ⟨?_, fun e h => ?_⟩,
          fun d v fl gl => ⟨?_, fun e h => ?_⟩, by decide⟩
  · simp only [sharedAtomicUpdate, specFailureProtocol]; split_ifs <;> rfl
  · rw [h]; rfl
  · simp only [redisAtomicUpdate, specFailureProtocol]; split_ifs <;> rfl
  · rw [h]; rfl
  · simp only [simpleAtomicUpdate, specFailureProtocol]; split_ifs <;> rfl
  · rw [h]; rfl

theorem C2_failure_protocol_witness :
    afterCall (⟨[0, 0], 0⟩ : SharedState)
        (sharedAtomicUpdate ⟨[0, 0], 0⟩ (-1) 0 0) = ⟨[0, 0], 0⟩ ∧
    afterCall (⟨[0, 0], some 0, none⟩ : RedisState)
        (redisAtomicUpdate ⟨[0, 0], some 0, none⟩ 7 5 0 1) = ⟨[0, 0], some 0, none⟩ ∧
    afterCall ([4, 0] : List Int) (simpleAtomicUpdate [4, 0] 3 0 6) = [4, 0] :=
  ⟨(C2_failure_protocol.1 ⟨[0, 0], 0⟩ (-1) 0 0).2 GateErr.gateOverflow rfl,
   (C2_failure_protocol.2.1 ⟨[0, 0], some 0, none⟩ 7 5 0 1).2 GateErr.frameLimit rfl,
   (C2_failure_protocol.2.2.1 [4, 0] 3 0 6).2 GateErr.gateLimit rfl⟩

/-- C1: on every backend, a successful atomic_update(v, frame_limit,
gate_limit) adds v to the cached sum and to data[0] and leaves every other
frame untouched. For the shared backend the hypotheses bound the new values
below 2^64, i.e. inside the domain of its uint64 cells (the documented
supported range of the storage). -/
theorem C1_update_post_state :
    (∀ (s : SharedState) (v fl gl : Int) (s' : SharedState),
      sharedAtomicUpdate s v fl gl = .ok s' →
      s.data ≠ [] →
      s.data.headD 0 + v < U64 → s.sum + v < U64 →
      s'.sum = s.sum + v ∧ s'.data.headD 0 = s.data.headD 0 + v ∧
        s'.data.tail = s.data.tail) ∧
    (∀ (s : RedisState) (v fl gl now : Int) (s' : RedisState),
      redisAtomicUpdate s v fl gl now = .ok s' →
      s.data ≠ [] →
      s'.sum.getD 0 = s.sum.getD 0 + v ∧ s'.data.headD 0 = s.data.headD 0 + v ∧
        s'.data.tail = s.data.tail) ∧
    (∀ (d : List Int) (v fl gl : Int) (d' : List Int),
      simpleAtomicUpdate d v fl gl = .ok d' →
      d ≠ [] →
      simpleSum d' = simpleSum d + v ∧ d'.headD 0 = d.headD 0 + v ∧
        d'.tail = d.tail) := by
  refine ⟨fun s v fl gl s' h hne hb1 hb2 => ?_,
          fun s v fl gl now s' h hne => ?_,
          fun d v fl gl d' h hne => ?_⟩
  · simp only [sharedAtomicUpdate] at h
    split_ifs at h with h1 h2 h3 h4
    cases h
    have hv : 0 ≤ s.data.headD 0 + v := by omega
    have hs : 0 ≤ s.sum + v := by omega
    refine ⟨wrap64_eq_self _ hs hb2, ?_, tail_set_zero _ _⟩
    rw [headD_set_zero _ _ hne, wrap64_eq_self _ hv hb1]
  · simp only [redisAtomicUpdate] at h
    split_ifs at h
    cases h
    exact ⟨rfl, headD_set_zero _ _ hne, tail_set_zero _ _⟩
  · simp only [simpleAtomicUpdate] at h
    split_ifs at h
    cases h
    refine ⟨?_, headD_set_zero _ _ hne, tail_set_zero _ _⟩
    simp only [simpleSum]
    rw [sum_set_zero _ _ hne]
    ring

theorem C1_update_post_state_witness :
    ((⟨[3, 0], 3⟩ : SharedState).sum = (⟨[1, 0], 1⟩ : SharedState).sum + 2 ∧
      (⟨[3, 0], 3⟩ : SharedState).data.headD 0 =
        (⟨[1, 0], 1⟩ : SharedState).data.headD 0 + 2 ∧
      (⟨[3, 0], 3⟩ : SharedState).data.tail = (⟨[1, 0], 1⟩ : SharedState).data.tail) ∧
    ((⟨[3, 0], some 3, some 9⟩ : RedisState).sum.getD 0 =
        (⟨[1, 0], some 1, none⟩ : RedisState).sum.getD 0 + 2 ∧
      (⟨[3, 0], some 3, some 9⟩ : RedisState).data.headD 0 =
        (⟨[1, 0], some 1, none⟩ : RedisState).data.headD 0 + 2 ∧
      (⟨[3, 0], some 3, some 9⟩ : RedisState).data.tail =
        (⟨[1, 0], some 1, none⟩ : RedisState).data.tail) ∧
    (simpleSum [3, 0] = simpleSum [1, 0] + 2 ∧
      ([3, 0] : List Int).headD 0 = ([1, 0] : List Int).headD 0 + 2 ∧
      ([3, 0] : List Int).tail = ([1, 0] : List Int).tail) :=
  ⟨C1_update_post_state.1 ⟨[1, 0], 1⟩ 2 0 0 ⟨[3, 0], 3⟩ rfl (by decide)
      (by decide) (by decide),
   C1_update_post_state.2.1 ⟨[1, 0], some 1, none⟩ 2 0 0 9 ⟨[3, 0], some 3, some 9⟩
      rfl (by decide),
   C1_update_post_state.2.2 [1, 0] 2 0 0 [3, 0] rfl (by decide)⟩

/-- C10: for either boolean and either throw flag, update raises the
library's type error (CallGateTypeError, "Value must be an integer") before
touching anything — even though isinstance(value, int) holds for booleans in
Python — and the gate state is left unchanged. -/
theorem C10_bool_update_rejected :
    ∀ (b throw : Bool) (fl gl t : Int) (frames : Nat)
      (attempts : Nat → Except GateErr SharedState) (fuel : Nat) (g : GWState),
      pyIsInstanceInt (PyVal.bool b) = true ∧
      gateUpdate (PyVal.bool b) throw fl attempts fuel =
        UpdateResult.err GateErr.typeError ∧
      gateUpdateEffect frames fl gl t (PyVal.bool b) g = g := by
  intro b throw fl gl t frames attempts fuel g
  refine ⟨rfl, ?_, ?_⟩ <;>
    simp [gateUpdate, gateUpdateEffect, isIntCG, pyIsInstanceBool, pyIsInstanceInt]

/-- C6 fails as stated: with throw=False and a frame limit of 3, update(5)
raises FrameLimitError — a throttling error — to the caller, via the
pre-check of CallGate.update that fires regardless of the throw flag. -/
theorem C6_counterexample :
    gateUpdate (PyVal.int 5) false 3
        (fun _ => Except.ok (⟨[0, 0], 0⟩ : SharedState)) 5 =
      UpdateResult.err GateErr.frameLimit ∧
    GateErr.frameLimit.isThrottling = true := by
  exact ⟨rfl, rfl⟩

/-- C6 amended: for update(value, throw=False) with an integer value, apart
from the pre-check — which raises the frame-limit error whenever
value > frame_limit > 0, regardless of throw — no throttling error ever
propagates to the caller: the retry loop swallows frame-limit and gate-limit
errors and retries, while type misuse and overflow errors are still raised. -/
theorem C6_no_throttle_propagation {σ : Type} :
    ∀ (v frameLimit : Int) (attempts : Nat → Except GateErr σ) (fuel : Nat)
      (e : GateErr),
      ¬ (v > frameLimit ∧ 0 < frameLimit) →
      gateUpdate (PyVal.int v) false frameLimit attempts fuel =
        UpdateResult.err e →
      e.isThrottling = false := by
  intro v frameLimit attempts fuel e hpre h
  simp only [gateUpdate, isIntCG, pyIsInstanceBool, pyIsInstanceInt] at h
  by_cases hv : v = 0
  · rw [if_pos hv] at h; exact absurd h (by simp)
  · rw [if_neg hv, if_neg hpre] at h
    cases hA : attempts 0 with
    | ok s =>
      rw [hA] at h
      exact absurd h (by simp)
    | error e0 =>
      rw [hA] at h
      simp only [Bool.false_eq_true, if_false] at h
      exact gateUpdateLoop_no_throttle attempts fuel 1 e h

theorem C6_no_throttle_propagation_witness :
    GateErr.frameOverflow.isThrottling = false :=
  @C6_no_throttle_propagation Unit 1 0
    (fun _ => Except.error GateErr.frameOverflow) 1 GateErr.frameOverflow
    (by decide) rfl

theorem drop_eq_dropLast_drop (l : List Int) (hne : l ≠ []) (k : Nat)
    (h : k ≤ l.length - 1) :
    l.drop k = l.dropLast.drop k ++ [l.getLast hne] := by
  conv_lhs => rw [← List.dropLast_append_getLast hne]
  rw [List.drop_append_of_le_length]
  rw [List.length_dropLast]
  omega

theorem redisSlideLoop_closed (n : Nat) :
    ∀ (l : List Int) (acc : Int), n ≤ l.length →
      redisSlideLoop l acc n =
        (List.replicate n 0 ++ l.take (l.length - n),
          acc + (l.drop (l.length - n)).sum) := by
  induction n with
  | zero => intro l acc _; simp [redisSlideLoop]
  | succ k ih =>
    intro l acc h
    have hne : l ≠ [] := by
      intro hl; rw [hl] at h; simp at h
    have hlast : l.getLast? = some (l.getLast hne) := List.getLast?_eq_getLast l hne
    have hstep : redisShiftStep (l, acc) = (0 :: l.dropLast, acc + l.getLast hne) := by
      simp [redisShiftStep, hlast]
    have hlen : l.dropLast.length = l.length - 1 := List.length_dropLast l
    have hlen2 : (0 :: l.dropLast).length = l.length := by
      simp [hlen]
      omega
    rw [redisSlideLoop, hstep]
    rw [ih (0 :: l.dropLast) (acc + l.getLast hne) (by rw [hlen2]; omega)]
    rw [hlen2]
    have hL : 1 ≤ l.length - k := by omega
    rw [Prod.mk.injEq]
    constructor
    · have h1 : (0 :: l.dropLast).take (l.length - k) =
          0 :: l.dropLast.take (l.length - (k + 1)) := by
        have : l.length - k = (l.length - (k + 1)) + 1 := by omega
        rw [this, List.take_succ_cons]
      rw [h1]
      have h2 : l.dropLast.take (l.length - (k + 1)) = l.take (l.length - (k + 1)) := by
        rw [List.dropLast_eq_take, List.take_take]
        congr 1
        omega
      rw [h2]
      have h3 : List.replicate (k + 1) (0 : Int) = List.replicate k 0 ++ [0] :=
        List.replicate_succ' k 0
      rw [h3]
      simp
    · have h4 : (0 :: l.dropLast).drop (l.length - k) =
          l.dropLast.drop (l.length - (k + 1)) := by
        have : l.length - k = (l.length - (k + 1)) + 1 := by omega
        rw [this, List.drop_succ_cons]
      rw [h4]
      have h5 : l.drop (l.length - (k + 1)) =
          l.dropLast.drop (l.length - (k + 1)) ++ [l.getLast hne] :=
        drop_eq_dropLast_drop l hne _ (by omega)
      rw [h5]
      simp
      ring

theorem dequeExtendLeft_zeros (cap : Nat) :
    ∀ (k : Nat) (d : List Int), d.length = cap →
      dequeExtendLeft cap (List.replicate k 0) d =
        List.replicate (min k cap) 0 ++ d.take (cap - k) := by
  intro k
  induction k with
  | zero =>
    intro d hd
    simp [dequeExtendLeft, ← hd, List.take_length]
  | succ k ih =>
    intro d hd
    rw [List.replicate_succ, dequeExtendLeft]
    have hd' : ((0 :: d).take cap).length = cap := by
      simp [hd]
    rw [ih _ hd']
    rw [List.take_take]
    by_cases hk : k < cap
    · have h1 : min (cap - k) cap = cap - k := by omega
      have h2 : cap - k = (cap - (k + 1)) + 1 := by omega
      rw [h1, h2, List.take_succ_cons]
      have h3 : min k cap = k := by omega
      have h4 : min (k + 1) cap = k + 1 := by omega
      rw [h3, h4, List.replicate_succ' k 0]
      simp
    · have h1 : min (cap - k) cap = 0 := by omega
      have h2 : min k cap = cap := by omega
      have h3 : min (k + 1) cap = cap := by omega
      have h4 : cap - (k + 1) = 0 := by omega
      rw [h1, h2, h3, h4]
      simp

theorem shiftList_getD_lt (xs : List Int) (n m i : Nat) (h : i < n) :
    (List.replicate n (0 : Int) ++ xs.take m).getD i 0 = 0 :=
  getD_replicate_append_left n i _ h

theorem shiftList_getD_ge (xs : List Int) (n i : Nat) (h1 : n ≤ i)
    (h2 : i < xs.length) :
    (List.replicate n (0 : Int) ++ xs.take (xs.length - n)).getD i 0 =
      xs.getD (i - n) 0 := by
  rw [getD_replicate_append_right n i _ h1, getD_take]
  omega

/-- C4: on every backend, slide(n) with 0 < n < frames shifts the ring right
by n — data[i] after = data[i-n] before for i >= n, zero for i < n — and
decrements the sum by exactly the total of the n discarded tail entries (for
the shared backend under its ring-sum invariant and inside the uint64
domain, since that backend recomputes the sum from the shifted ring). -/
theorem C4_slide_shift :
    (∀ (s : SharedState) (n : Int) (s' : SharedState),
      sharedSlide s.data.length s n = .ok s' →
      0 < n → n < (s.data.length : Int) →
      (∀ i : Nat, i < n.toNat → s'.data.getD i 0 = 0) ∧
      (∀ i : Nat, n.toNat ≤ i → i < s.data.length →
        s'.data.getD i 0 = s.data.getD (i - n.toNat) 0) ∧
      (s.sum = s.data.sum →
        0 ≤ s.sum - (s.data.drop (s.data.length - n.toNat)).sum →
        s.sum - (s.data.drop (s.data.length - n.toNat)).sum < U64 →
        s'.sum = s.sum - (s.data.drop (s.data.length - n.toNat)).sum)) ∧
    (∀ (cap : Nat) (s : RedisState) (n now : Int) (s' : RedisState),
      redisSlide cap s n now = .ok s' →
      0 < n → n < (cap : Int) → s.data.length = cap →
      (∀ i : Nat, i < n.toNat → s'.data.getD i 0 = 0) ∧
      (∀ i : Nat, n.toNat ≤ i → i < s.data.length →
        s'.data.getD i 0 = s.data.getD (i - n.toNat) 0) ∧
      s'.sum = some (s.sum.getD 0 - (s.data.drop (s.data.length - n.toNat)).sum)) ∧
    (∀ (cap : Nat) (d : List Int) (n : Int) (d' : List Int),
      simpleSlide cap d n = .ok d' →
      0 < n → n < (cap : Int) → d.length = cap →
      (∀ i : Nat, i < n.toNat → d'.getD i 0 = 0) ∧
      (∀ i : Nat, n.toNat ≤ i → i < d.length →
        d'.getD i 0 = d.getD (i - n.toNat) 0) ∧
      simpleSum d' = simpleSum d - (d.drop (d.length - n.toNat)).sum) := by
  refine ⟨fun s n s' h hn0 hcap => ?_, fun cap s n now s' h hn0 hcap hlen => ?_,
          fun cap d n d' h hn0 hcap hlen => ?_⟩
  · simp only [sharedSlide] at h
    rw [if_neg (show ¬ ((s.data.length : Int) ≤ n) by omega)] at h
    rw [if_neg (show ¬ (n = 0) by omega)] at h
    rw [if_pos hn0] at h
    · cases h
      have hmin : min n.toNat s.data.length = n.toNat := by omega
      simp only [sharedSetSum, hmin]
      refine ⟨fun i hi => shiftList_getD_lt _ _ _ _ hi,
              fun i hi1 hi2 => shiftList_getD_ge _ _ _ hi1 hi2, ?_⟩
      intro hinv hge hlt
      have hs : (List.replicate n.toNat (0 : Int) ++
          s.data.take (s.data.length - n.toNat)).sum =
          s.data.sum - (s.data.drop (s.data.length - n.toNat)).sum := by
        rw [List.sum_append, sum_take_of_drop]
        simp [List.sum_replicate]
      rw [hs, ← hinv]
      exact wrap64_eq_self _ hge hlt
  · simp only [redisSlide] at h
    rw [if_neg (show ¬ (n < 1) by omega)] at h
    rw [if_neg (show ¬ ((cap : Int) ≤ n) by omega)] at h
    · cases h
      have hnn : n.toNat ≤ s.data.length := by omega
      have hclosed := redisSlideLoop_closed n.toNat s.data 0 hnn
      simp only [redisSlideScript, hclosed]
      refine ⟨fun i hi => shiftList_getD_lt _ _ _ _ hi,
              fun i hi1 hi2 => shiftList_getD_ge _ _ _ hi1 hi2, ?_⟩
      simp
  · simp only [simpleSlide] at h
    rw [if_neg (show ¬ (n < 1) by omega)] at h
    · cases h
      rw [dequeExtendLeft_zeros cap n.toNat d hlen]
      have hmin : min n.toNat cap = n.toNat := by omega
      rw [hmin, ← hlen]
      refine ⟨fun i hi => shiftList_getD_lt _ _ _ _ hi,
              fun i hi1 hi2 => shiftList_getD_ge _ _ _ hi1 hi2, ?_⟩
      simp only [simpleSum]
      rw [List.sum_append, sum_take_of_drop]
      simp [List.sum_replicate]

theorem C4_slide_shift_witness :
    ((⟨[0, 1, 2], 3⟩ : SharedState).data.getD 0 0 = 0 ∧
      (⟨[0, 1, 2], 3⟩ : SharedState).data.getD 1 0 =
        (⟨[1, 2, 3], 6⟩ : SharedState).data.getD 0 0 ∧
      (⟨[0, 1, 2], 3⟩ : SharedState).sum = (⟨[1, 2, 3], 6⟩ : SharedState).sum - 3) ∧
    ((⟨[0, 1, 2], some 3, some 8⟩ : RedisState).data.getD 0 0 = 0 ∧
      (⟨[0, 1, 2], some 3, some 8⟩ : RedisState).sum =
        some ((⟨[1, 2, 3], some 6, none⟩ : RedisState).sum.getD 0 - 3)) ∧
    (([0, 1, 2] : List Int).getD 0 0 = 0 ∧
      simpleSum [0, 1, 2] = simpleSum [1, 2, 3] - 3) := by
  have hsh := C4_slide_shift.1 ⟨[1, 2, 3], 6⟩ 1 ⟨[0, 1, 2], 3⟩ rfl
    (by decide) (by decide)
  have hrd := C4_slide_shift.2.1 3 ⟨[1, 2, 3], some 6, none⟩ 1 8
    ⟨[0, 1, 2], some 3, some 8⟩ rfl (by decide) (by decide) (by decide)
  have hsi := C4_slide_shift.2.2 3 [1, 2, 3] 1 [0, 1, 2] rfl
    (by decide) (by decide) (by decide)
  refine ⟨⟨hsh.1 0 (by decide), hsh.2.1 1 (by decide) (by decide),
           hsh.2.2 (by decide) (by decide) (by decide)⟩,
          ⟨hrd.1 0 (by decide), hrd.2.2⟩,
          ⟨hsi.1 0 (by decide), hsi.2.2⟩⟩

theorem redisShiftStep_zeros (cap : Nat) (hcap : 0 < cap) (acc : Int) :
    redisShiftStep (List.replicate cap 0, acc) = (List.replicate cap 0, acc) := by
  cases cap with
  | zero => omega
  | succ c =>
    rw [redisShiftStep]
    rw [List.replicate_succ' c 0]
    simp [List.getLast?_concat, List.dropLast_concat, ← List.replicate_succ]
    rw [List.replicate_succ' c 0]

theorem redisSlideLoop_zeros (cap : Nat) (hcap : 0 < cap) :
    ∀ (n : Nat) (acc : Int),
      redisSlideLoop (List.replicate cap 0) acc n = (List.replicate cap 0, acc) := by
  intro n
  induction n with
  | zero => intro acc; rfl
  | succ k ih =>
    intro acc
    rw [redisSlideLoop, redisShiftStep_zeros cap hcap acc]
    exact ih acc

/-- C5 fails as stated: the shared backend does not reject n < 1 — slide(-1)
on the ring [5, 7] raises nothing and rewrites the state to ([0, 5], 5) —
and on the redis backend slide(n) with n >= frames does not produce
clear()'s state: the slide script runs after the internal clear() and
re-sets the timestamp key (to the slide wall-clock time), while clear()
leaves it deleted. -/
theorem C5_counterexample :
    errOf (sharedSlide 2 ⟨[5, 7], 12⟩ (-1)) = none ∧
    afterCall (⟨[5, 7], 12⟩ : SharedState) (sharedSlide 2 ⟨[5, 7], 12⟩ (-1)) =
      ⟨[0, 5], 5⟩ ∧
    ¬ ((⟨[0, 5], 5⟩ : SharedState) = ⟨[5, 7], 12⟩) ∧
    redisSlide 2 ⟨[1, 0], some 1, none⟩ 2 99 = .ok ⟨[0, 0], some 0, some 99⟩ ∧
    (redisClear 2).timestamp = none ∧
    ¬ ((some (99 : Int)) = (none : Option Int)) :=
  ⟨rfl, rfl, by decide, rfl, rfl, by decide⟩

/-- C5 amended: the simple and redis backends reject every n < 1 with a
value error leaving the state unchanged, but the shared backend does not
validate n (its n <= 0 branch is a bare pass). For n >= frames the shared
backend produces exactly clear()'s state; the redis backend zeroes the ring
and the sum as clear() does but sets the timestamp to the slide time instead
of leaving it cleared; the simple backend zeroes the ring. -/
theorem C5_slide_validation_amended :
    (∀ (cap : Nat) (s : RedisState) (n now : Int), n < 1 →
      redisSlide cap s n now = .error .valueError) ∧
    (∀ (cap : Nat) (d : List Int) (n : Int), n < 1 →
      simpleSlide cap d n = .error .valueError) ∧
    (∀ (s : SharedState) (n : Int), (s.data.length : Int) ≤ n →
      sharedSlide s.data.length s n = .ok (sharedClear s)) ∧
    (∀ (cap : Nat) (s : RedisState) (n now : Int), 0 < cap → 1 ≤ n →
      (cap : Int) ≤ n →
      redisSlide cap s n now = .ok ⟨List.replicate cap 0, some 0, some now⟩ ∧
      (redisClear cap).timestamp = none) ∧
    (∀ (cap : Nat) (d : List Int) (n : Int), d.length = cap → 1 ≤ n →
      (cap : Int) ≤ n →
      simpleSlide cap d n = .ok (List.replicate cap 0)) := by
  refine ⟨fun cap s n now hn => ?_, fun cap d n hn => ?_, fun s n hn => ?_,
          fun cap s n now hcap hn1 hncap => ⟨?_, rfl⟩,
          fun cap d n hlen hn1 hncap => ?_⟩
  · simp only [redisSlide]
    rw [if_pos hn]
  · simp only [simpleSlide]
    rw [if_pos hn]
  · simp only [sharedSlide]
    rw [if_pos hn]
  · simp only [redisSlide]
    rw [if_neg (show ¬ (n < 1) by omega), if_pos hncap]
    simp only [redisSlideScript, redisClear]
    rw [redisSlideLoop_zeros cap hcap n.toNat 0]
    simp
  · simp only [simpleSlide]
    rw [if_neg (show ¬ (n < 1) by omega)]
    rw [dequeExtendLeft_zeros cap n.toNat d hlen]
    have h1 : min n.toNat cap = cap := by omega
    have h2 : cap - n.toNat = 0 := by omega
    rw [h1, h2]
    simp

theorem C5_slide_validation_amended_witness :
    redisSlide 2 ⟨[4, 5], some 9, none⟩ 0 7 = .error .valueError ∧
    simpleSlide 2 [4, 5] 0 = .error .valueError ∧
    sharedSlide 2 ⟨[4, 5], 9⟩ 2 = .ok (sharedClear ⟨[4, 5], 9⟩) ∧
    redisSlide 2 ⟨[4, 5], some 9, none⟩ 3 7 =
      .ok ⟨List.replicate 2 0, some 0, some 7⟩ ∧
    simpleSlide 2 [4, 5] 3 = .ok (List.replicate 2 0) :=
  ⟨C5_slide_validation_amended.1 2 ⟨[4, 5], some 9, none⟩ 0 7 (by decide),
   C5_slide_validation_amended.2.1 2 [4, 5] 0 (by decide),
   C5_slide_validation_amended.2.2.1 ⟨[4, 5], 9⟩ 2 (by decide),
   (C5_slide_validation_amended.2.2.2.1 2 ⟨[4, 5], some 9, none⟩ 3 7
     (by decide) (by decide) (by decide)).1,
   C5_slide_validation_amended.2.2.2.2 2 [4, 5] 3 (by decide) (by decide)
     (by decide)⟩

/-! ## Operation sequences per backend (for invariant claims) -/

/-- The mutating operations of the shared backend. -/
inductive SharedOp where
  | update (v fl gl : Int)
  | slide (n : Int)
  | clear
  | setItem (i : Nat) (v : Int)
deriving DecidableEq, Repr

/-- One completed shared-backend operation; a raised exception leaves the
state unchanged. The array length is the capacity of the storage. -/
def sharedStep (s : SharedState) : SharedOp → SharedState
  | .update v fl gl => afterCall s (sharedAtomicUpdate s v fl gl)
  | .slide n => afterCall s (sharedSlide s.data.length s n)
  | .clear => sharedClear s
  | .setItem i v => sharedSetItem s i v

/-- The shared-backend state after construction (fresh region, optional seed
data) and a sequence of completed operations. -/
def sharedRun (capacity : Nat) (seed : List Int) (ops : List SharedOp) :
    SharedState :=
  ops.foldl sharedStep (sharedInit capacity none seed)

/-- The mutating operations of the redis backend. -/
inductive RedisOp where
  | update (v fl gl now : Int)
  | slide (n now : Int)
  | clear
deriving DecidableEq, Repr

/-- One completed redis-backend operation. -/
def redisStep (capacity : Nat) (s : RedisState) : RedisOp → RedisState
  | .update v fl gl now => afterCall s (redisAtomicUpdate s v fl gl now)
  | .slide n now => afterCall s (redisSlide capacity s n now)
  | .clear => redisClear capacity

/-- The redis-backend state after the initialization script has run against
any pre-existing server state and a sequence of completed operations. -/
def redisRun (capacity : Nat) (provided : List Int) (s0 : RedisState)
    (ops : List RedisOp) : RedisState :=
  ops.foldl (redisStep capacity) (redisInitScript capacity provided s0)

theorem foldl_preserves {α σ : Type} (P : σ → Prop) (step : σ → α → σ)
    (hstep : ∀ s a, P s → P (step s a)) :
    ∀ (l : List α) (s : σ), P s → P (l.foldl step s) := by
  intro l
  induction l with
  | nil => intro s h; exact h
  | cons a t ih => intro s h; exact ih _ (hstep s a h)

/-- The shared-backend representation invariant: a non-empty ring and a sum
word holding the uint64 value of the ring total. -/
def SharedInv (s : SharedState) : Prop :=
  0 < s.data.length ∧ s.sum = wrap64 s.data.sum

theorem sharedInit_inv (capacity : Nat) (seed : List Int) (h : 0 < capacity) :
    SharedInv (sharedInit capacity none seed) := by
  refine ⟨?_, rfl⟩
  simp only [sharedInit, sharedSetSum, Option.getD_none]
  simp [List.length_take]
  omega

theorem sharedStep_inv (s : SharedState) (op : SharedOp) (h : SharedInv s) :
    SharedInv (sharedStep s op) := by
  obtain ⟨hlen, hsum⟩ := h
  have hne : s.data ≠ [] := by
    intro h0; rw [h0] at hlen; simp at hlen
  cases op with
  | update v fl gl =>
    simp only [sharedStep]
    cases hA : sharedAtomicUpdate s v fl gl with
    | error e => exact ⟨hlen, hsum⟩
    | ok s' =>
      simp only [sharedAtomicUpdate] at hA
      split_ifs at hA
      cases hA
      simp only [afterCall]
      constructor
      · simpa using hlen
      · rw [sum_set_zero _ _ hne, hsum, wrap64_wrap_add]
        rw [show s.data.sum - s.data.headD 0 + wrap64 (s.data.headD 0 + v) =
          wrap64 (s.data.headD 0 + v) + (s.data.sum - s.data.headD 0) by ring]
        rw [wrap64_wrap_add]
        ring_nf
  | slide n =>
    simp only [sharedStep]
    cases hA : sharedSlide s.data.length s n with
    | error e => exact ⟨hlen, hsum⟩
    | ok s' =>
      simp only [afterCall]
      simp only [sharedSlide] at hA
      split_ifs at hA with h1 h2 h3 h4
      · cases hA
        refine ⟨by simpa [sharedClear] using hlen, ?_⟩
        simp [sharedClear, wrap64]
      · exact absurd hlen (by omega)
      · cases hA
        refine ⟨?_, rfl⟩
        simp only [sharedSetSum, List.length_append,
          List.length_replicate, List.length_take]
        omega
      · cases hA
        refine ⟨?_, rfl⟩
        simp only [sharedSetSum, List.length_append,
          List.length_replicate, List.length_take]
        omega
  | clear =>
    refine ⟨by simpa [sharedStep, sharedClear] using hlen, ?_⟩
    simp [sharedStep, sharedClear, wrap64]
  | setItem i v =>
    refine ⟨?_, rfl⟩
    simp only [sharedStep, sharedSetItem, sharedSetSum, List.length_set]
    exact hlen

theorem sharedRun_inv (capacity : Nat) (seed : List Int) (ops : List SharedOp)
    (h : 0 < capacity) : SharedInv (sharedRun capacity seed ops) :=
  foldl_preserves SharedInv sharedStep sharedStep_inv ops _
    (sharedInit_inv capacity seed h)

theorem redisSlideLoop_conserve :
    ∀ (n : Nat) (l : List Int) (acc : Int),
      (redisSlideLoop l acc n).1.sum + (redisSlideLoop l acc n).2 =
        l.sum + acc := by
  intro n
  induction n with
  | zero => intro l acc; simp [redisSlideLoop]
  | succ k ih =>
    intro l acc
    rw [redisSlideLoop]
    cases hL : l.getLast? with
    | none =>
      have hstep : redisShiftStep (l, acc) = (0 :: l, acc) := by
        simp [redisShiftStep, hL]
      rw [hstep]
      have := ih (0 :: l) acc
      simpa using this
    | some a =>
      have hne : l ≠ [] := by
        intro h0; rw [h0] at hL; simp at hL
      have hstep : redisShiftStep (l, acc) = (0 :: l.dropLast, acc + a) := by
        simp [redisShiftStep, hL]
      simp only [hstep]
      have hsum : l.dropLast.sum + a = l.sum := by
        have hg := List.getLast?_eq_getLast l hne
        rw [hL] at hg
        injection hg with hg
        conv_rhs => rw [← List.dropLast_append_getLast hne]
        rw [List.sum_append, hg]
        simp
      have := ih (0 :: l.dropLast) (acc + a)
      simp only [List.sum_cons, zero_add] at this
      omega

theorem redisSlideLoop_length :
    ∀ (n : Nat) (l : List Int) (acc : Int), l ≠ [] →
      (redisSlideLoop l acc n).1.length = l.length := by
  intro n
  induction n with
  | zero => intro l acc _; rfl
  | succ k ih =>
    intro l acc hne
    rw [redisSlideLoop]
    cases hL : l.getLast? with
    | none =>
      exact absurd (List.getLast?_eq_getLast l hne) (by rw [hL]; simp)
    | some a =>
      have hstep : redisShiftStep (l, acc) = (0 :: l.dropLast, acc + a) := by
        simp [redisShiftStep, hL]
      rw [hstep]
      have h1 : (0 :: l.dropLast).length = l.length := by
        simp [List.length_dropLast]
        have : l.length ≠ 0 := by
          intro h0
          exact hne (List.length_eq_zero.mp h0)
        omega
      rw [ih (0 :: l.dropLast) (acc + a) (by simp), h1]

theorem adjustList_length (l : List Int) (cap : Nat) :
    (adjustList l cap).length = cap := by
  unfold adjustList
  split_ifs with h
  · simp
    omega
  · simp
    omega

/-- The redis-backend representation invariant: the list key holds exactly
capacity entries and the sum key holds exactly their total. -/
def RedisInv (capacity : Nat) (s : RedisState) : Prop :=
  s.data.length = capacity ∧ s.sum = some s.data.sum

theorem redisInitScript_inv (capacity : Nat) (provided : List Int)
    (s0 : RedisState) : RedisInv capacity (redisInitScript capacity provided s0) := by
  unfold redisInitScript RedisInv
  split_ifs <;> exact ⟨adjustList_length _ _, rfl⟩

theorem redisStep_inv (capacity : Nat) (hcap : 0 < capacity) (s : RedisState)
    (op : RedisOp) (h : RedisInv capacity s) :
    RedisInv capacity (redisStep capacity s op) := by
  obtain ⟨hlen, hsum⟩ := h
  have hne : s.data ≠ [] := by
    intro h0; rw [h0] at hlen; simp at hlen; omega
  cases op with
  | update v fl gl now =>
    simp only [redisStep]
    cases hA : redisAtomicUpdate s v fl gl now with
    | error e => exact ⟨hlen, hsum⟩
    | ok s' =>
      simp only [redisAtomicUpdate] at hA
      split_ifs at hA
      cases hA
      simp only [afterCall]
      constructor
      · simpa using hlen
      · rw [sum_set_zero _ _ hne, hsum]
        simp only [Option.getD_some]
        congr 1
        ring
  | slide n now =>
    simp only [redisStep]
    cases hA : redisSlide capacity s n now with
    | error e => exact ⟨hlen, hsum⟩
    | ok s' =>
      simp only [afterCall]
      simp only [redisSlide] at hA
      split_ifs at hA with h1 h2
      · -- n >= capacity: the script runs on the cleared state
        cases hA
        simp only [redisSlideScript, redisClear]
        have hz := redisSlideLoop_zeros capacity hcap n.toNat 0
        rw [hz]
        refine ⟨by simp, ?_⟩
        simp
      · -- 1 <= n < capacity: the script runs on the current state
        cases hA
        simp only [redisSlideScript]
        have hc := redisSlideLoop_conserve n.toNat s.data 0
        have hl := redisSlideLoop_length n.toNat s.data 0 hne
        refine ⟨by rw [hl, hlen], ?_⟩
        rw [hsum]
        simp only [Option.getD_some]
        congr 1
        omega
  | clear =>
    refine ⟨by simp [redisStep, redisClear], ?_⟩
    simp [redisStep, redisClear]

theorem redisRun_inv (capacity : Nat) (provided : List Int) (s0 : RedisState)
    (ops : List RedisOp) (hcap : 0 < capacity) :
    RedisInv capacity (redisRun capacity provided s0 ops) :=
  foldl_preserves (RedisInv capacity) (redisStep capacity)
    (redisStep_inv capacity hcap) ops _ (redisInitScript_inv capacity provided s0)

/-- C3: at every externally observable point — after construction and after
each completed atomic_update, slide, clear or indexed set — the cached sum
equals the ring total: exactly on the redis backend, as the uint64 value of
the total on the shared backend (hence exactly whenever the total lies in
the uint64 range, which every supported value does), and definitionally on
the simple backend, whose sum is recomputed from the deque on every read. -/
theorem C3_sum_invariant :
    (∀ (capacity : Nat) (seed : List Int) (ops : List SharedOp),
      0 < capacity →
      (sharedRun capacity seed ops).sum =
        wrap64 (sharedRun capacity seed ops).data.sum ∧
      (0 ≤ (sharedRun capacity seed ops).data.sum →
        (sharedRun capacity seed ops).data.sum < U64 →
        (sharedRun capacity seed ops).sum = (sharedRun capacity seed ops).data.sum)) ∧
    (∀ (capacity : Nat) (provided : List Int) (s0 : RedisState)
        (ops : List RedisOp), 0 < capacity →
      (redisRun capacity provided s0 ops).sum =
        some (redisRun capacity provided s0 ops).data.sum) ∧
    (∀ d : List Int, simpleSum d = (simpleAsList d).sum) := by
  refine ⟨fun capacity seed ops h => ?_, fun capacity provided s0 ops h => ?_,
          fun d => rfl⟩
  · have hinv := sharedRun_inv capacity seed ops h
    refine ⟨hinv.2, fun h0 h1 => ?_⟩
    rw [hinv.2]
    exact wrap64_eq_self _ h0 h1
  · exact (redisRun_inv capacity provided s0 ops h).2

theorem C3_sum_invariant_witness :
    ((sharedRun 2 [1] [SharedOp.update 2 0 0]).sum =
        wrap64 (sharedRun 2 [1] [SharedOp.update 2 0 0]).data.sum ∧
      (0 ≤ (sharedRun 2 [1] [SharedOp.update 2 0 0]).data.sum →
        (sharedRun 2 [1] [SharedOp.update 2 0 0]).data.sum < U64 →
        (sharedRun 2 [1] [SharedOp.update 2 0 0]).sum =
          (sharedRun 2 [1] [SharedOp.update 2 0 0]).data.sum)) ∧
    (redisRun 2 [1] ⟨[], none, none⟩ [RedisOp.slide 1 5]).sum =
      some (redisRun 2 [1] ⟨[], none, none⟩ [RedisOp.slide 1 5]).data.sum ∧
    simpleSum [3, 4] = (simpleAsList [3, 4]).sum :=
  ⟨C3_sum_invariant.1 2 [1] [SharedOp.update 2 0 0] (by decide),
   C3_sum_invariant.2.1 2 [1] ⟨[], none, none⟩ [RedisOp.slide 1 5] (by decide),
   C3_sum_invariant.2.2 [3, 4]⟩

theorem refreshFrames_dt_within (frames : Nat) (t d0 : Int) (s : GWState)
    (h : s.dt = some d0) (ht : t - d0 < (frames : Int)) :
    (refreshFrames frames t s).dt ≠ none := by
  simp only [refreshFrames, h]
  split_ifs with h1 h2
  · exact absurd h1 (by omega)
  · simp
  · rw [h]; simp

theorem gateUpdateEffect_dt_within (frames : Nat) (frameLimit gateLimit t d0 : Int)
    (s : GWState) (value : PyVal) (h : s.dt = some d0)
    (ht : t - d0 < (frames : Int)) :
    (gateUpdateEffect frames frameLimit gateLimit t value s).dt ≠ none := by
  cases value with
  | int v =>
    simp only [gateUpdateEffect]
    split_ifs <;>
      first
      | (rw [h]; simp)
      | (cases hA : simpleAtomicUpdate (refreshFrames frames t s).ring v
            frameLimit gateLimit with
         | ok d =>
           simp only [hA]
           exact refreshFrames_dt_within frames t d0 s h ht
         | error e =>
           simp only [hA]
           exact refreshFrames_dt_within frames t d0 s h ht)
  | bool b =>
    simp only [gateUpdateEffect, ite_self]
    rw [h]; simp
  | noneV =>
    simp only [gateUpdateEffect, ite_self]
    rw [h]; simp
  | other =>
    simp only [gateUpdateEffect, ite_self]
    rw [h]; simp

/-- C7 fails as stated in both directions: check_limits on a freshly
constructed gate sets the timestamp while the ring is still default, and an
update arriving a whole window after the previous one clears the timestamp
(through the clear() branch of _refresh_frames, which never re-sets it)
while making the ring non-default. -/
theorem C7_counterexample :
    gateRun 2 0 0 [GateOp.checkLimits 5] = ⟨[0, 0], some 5⟩ ∧
    (gateConstruct 2).ring = [0, 0] ∧
    gateRun 2 0 0 [GateOp.update 0 (PyVal.int 1), GateOp.update 2 (PyVal.int 1)] =
      ⟨[1, 0], none⟩ ∧
    ¬ ([1, 0] = List.replicate 2 (0 : Int)) := by
  exact ⟨by decide, rfl, by decide, by decide⟩

/-- C7 amended: clear() leaves the timestamp absent and the ring default,
and an unseeded construction starts with both absent and default; moreover
no in-window operation removes the timestamp: a refresh — and hence any
update, of any value — at a clock step less than frames after the recorded
step keeps the timestamp set, and a refresh on a gate without a timestamp
adopts the clock step. The two directions of the original iff do not hold
(see the counterexample). -/
theorem C7_timestamp_amended :
    ∀ (frames : Nat) (frameLimit gateLimit t d0 : Int) (s : GWState)
      (value : PyVal),
      (gateClear frames).dt = none ∧
      (gateClear frames).ring = List.replicate frames 0 ∧
      (gateConstruct frames).dt = none ∧
      (s.dt = none → (refreshFrames frames t s).dt = some t) ∧
      (s.dt = some d0 → t - d0 < (frames : Int) →
        (refreshFrames frames t s).dt ≠ none) ∧
      (s.dt = some d0 → t - d0 < (frames : Int) →
        (gateUpdateEffect frames frameLimit gateLimit t value s).dt ≠ none) := by
  intro frames frameLimit gateLimit t d0 s value
  refine ⟨rfl, rfl, rfl, fun h => ?_, fun h ht => ?_, fun h ht => ?_⟩
  · simp [refreshFrames, h]
  · exact refreshFrames_dt_within frames t d0 s h ht
  · exact gateUpdateEffect_dt_within frames frameLimit gateLimit t d0 s value h ht

theorem C7_timestamp_amended_witness :
    (refreshFrames 2 5 ⟨[0, 0], none⟩).dt = some 5 ∧
    (gateUpdateEffect 2 0 0 1 (PyVal.int 1) ⟨[1, 0], some 0⟩).dt ≠ none :=
  ⟨(C7_timestamp_amended 2 0 0 5 0 ⟨[0, 0], none⟩ (PyVal.int 1)).2.2.2.1 rfl,
   (C7_timestamp_amended 2 0 0 1 0 ⟨[1, 0], some 0⟩ (PyVal.int 1)).2.2.2.2.2 rfl
     (by decide)⟩

/-- C8 fails on the shared backend: as_list returns self._data[:-1], so a
fresh two-frame shared gate serializes its ring as a single entry instead of
frames entries (the repository's own tests assert the full length), while
the redis and simple backends return all frames. -/
theorem C8_as_list_length :
    sharedAsList ⟨[0, 0], 0⟩ = [0] ∧
    (sharedAsList ⟨[0, 0], 0⟩).length = 1 ∧
    ¬ ((sharedAsList ⟨[0, 0], 0⟩).length = 2) ∧
    (∀ s : SharedState, (sharedAsList s).length = s.data.length - 1) ∧
    (redisAsList ⟨[0, 0], some 0, none⟩).length = 2 ∧
    (simpleAsList [0, 0]).length = 2 := by
  refine ⟨rfl, rfl, by decide, fun s => ?_, rfl, rfl⟩
  simp [sharedAsList, List.length_dropLast]

/-- C9 fails on the shared backend, as a consequence of the as_list bug: the
ring [1, 2] (reachable by seeded construction) serializes to [1], and
rebuilding from that serialized data — into a fresh shared region or into a
fresh redis backend, as the storage-swap reload does — yields the ring
[1, 0] with sum 1: the oldest frame is lost and the visible state differs
from the original ([1, 2], sum 3). -/
theorem C9_roundtrip_loses_state :
    sharedInit 2 none [1, 2] = ⟨[1, 2], 3⟩ ∧
    sharedStateProp ⟨[1, 2], 3⟩ = ([1, 2], 3) ∧
    sharedAsList ⟨[1, 2], 3⟩ = [1] ∧
    sharedInit 2 none (sharedAsList ⟨[1, 2], 3⟩) = ⟨[1, 0], 1⟩ ∧
    redisInitScript 2 (sharedAsList ⟨[1, 2], 3⟩) ⟨[], none, none⟩ =
      ⟨[1, 0], some 1, none⟩ ∧
    ¬ (sharedStateProp ⟨[1, 0], 1⟩ = sharedStateProp ⟨[1, 2], 3⟩) := by
  exact ⟨by decide, rfl, rfl, by decide, by decide, by decide⟩
